import Mathlib

/-
Verification of the tournament bracket engine of a Brawl Stars tournament
chat bot (src/main.py, src/database.py).  The Python code keeps a
tournament as a dictionary; we embed it as a structure, with the bracket
(a Python dict from round keys to match lists) and the global match-score
map both embedded as insertion-ordered association lists keyed by Nat,
mirroring Python dict lookup/assignment semantics.
-/

namespace Brawl

/-- Tournament format, the `format` field of the tournament dict
(`'1v1' | '2v2' | '3v3'` in main.py). -/
inductive Format where
  | f1v1
  | f2v2
  | f3v3
deriving DecidableEq, Repr

/-- One entry of the global `match_scores` dict of main.py:
`{'team1_wins': int, 'team2_wins': int}`. -/
structure Score where
  team1_wins : Nat
  team2_wins : Nat
deriving DecidableEq, Repr

/-- A match dict as built by `create_1v1_bracket` / `create_team_bracket`
in main.py: `{'team1': [...], 'team2': [...], 'winner': None, 'match_id': k}`.
Players are identified by their Telegram user ids (naturals here). -/
structure Match where
  team1 : List Nat
  team2 : List Nat
  winner : Option (List Nat)
  match_id : Nat
deriving DecidableEq, Repr

/-- Lookup in an insertion-ordered association list (Python `d.get(k)`). -/
def alookup {α : Type} : List (Nat × α) → Nat → Option α
  | [], _ => none
  | (k, v) :: rest, key => if k = key then some v else alookup rest key

/-- Assignment in an insertion-ordered association list (Python `d[k] = v`):
replace the binding if the key is present, else append it, preserving
insertion order exactly as a Python dict does. -/
def aset {α : Type} : List (Nat × α) → Nat → α → List (Nat × α)
  | [], key, v => [(key, v)]
  | (k, w) :: rest, key, v =>
      if k = key then (key, v) :: rest else (k, w) :: aset rest key v

/-- Reading a score with the `{'team1_wins': 0, 'team2_wins': 0}` default
used throughout main.py. -/
def scoreGet (scores : List (Nat × Score)) (key : Nat) : Score :=
  (alookup scores key).getD ⟨0, 0⟩

/-- The tournament dict of main.py restricted to the fields the bracket
engine touches.  `rounds` embeds the `'round_N' ↦ matches` entries of the
bracket dict (keyed by the round number N); `current_round` embeds the
`'current_round'` pointer, `winners` the terminal `bracket['winners']`
list.  `finished` records that the single-winner termination branch ran
(`finish_tournament` was invoked).  `scores` embeds the global
`match_scores` dict. -/
structure Tournament where
  format : Format
  wins_needed : Nat
  participants : List Nat
  rounds : List (Nat × List Match)
  current_round : Nat
  winners : List Nat
  finished : Bool
  scores : List (Nat × Score)
deriving DecidableEq, Repr

/-- `team_size = 2 if format_type == '2v2' else 3` (main.py line 946). -/
def team_size : Format → Nat
  | .f2v2 => 2
  | _ => 3

/-- Modelled from the spec: the `MIN_TOURNAMENT_PARTICIPANTS` mapping is
imported from config.py, which is not part of the sources; per the spec
the format-specific minimums are 2 for 1v1, 4 for 2v2 and 6 for 3v3. -/
def MIN_TOURNAMENT_PARTICIPANTS : Format → Nat
  | .f1v1 => 2
  | .f2v2 => 4
  | .f3v3 => 6

/-- `check_tournament_start_conditions` (main.py lines 97-138), as a
function of the tournament's format and participant count, the only two
pieces of the tournament it reads.  Returns the `(ok, message)` pair. -/
def check_tournament_start_conditions (fmt : Format) (n : Nat) : Bool × String :=
  let min_participants := MIN_TOURNAMENT_PARTICIPANTS fmt
  if n < min_participants then
    (false, "Нужно минимум " ++ toString min_participants ++ " участников! (есть "
      ++ toString n ++ ")")
  else if fmt = .f2v2 then
    if n / 2 < 2 then
      (false, "Для 2v2 нужно минимум 4 игрока (2 команды). Не хватает: "
        ++ toString (4 - n))
    else if n > 12 then
      (false, "Максимум 12 игроков для турнира 2v2 (6 команд)")
    else if n % 2 ≠ 0 then
      (false, "Для 2v2 нужно четное количество игроков. Лишний игрок: 1")
    else (true, "Готов к старту!")
  else if fmt = .f3v3 then
    if n / 3 < 2 then
      (false, "Для 3v3 нужно минимум 6 игроков (2 команды). Не хватает: "
        ++ toString (6 - n))
    else if n > 18 then
      (false, "Максимум 18 игроков для турнира 3v3 (6 команд)")
    else if n % 3 ≠ 0 then
      (false, "Для 3v3 участники должны делиться на 3. Не хватает до полной команды: "
        ++ toString (3 - n % 3))
    else (true, "Готов к старту!")
  else (true, "Готов к старту!")

/-- The pairing loop of `create_1v1_bracket` (main.py lines 931-942):
`for i in range(0, len(participants), 2): if i + 1 < len(participants):`
append a match of `[participants[i]]` vs `[participants[i+1]]` with
`match_id = len(matches)`.  `mid` carries `len(matches)` so far. -/
def pair_players (mid : Nat) : List Nat → List Match
  | a :: b :: rest =>
      { team1 := [a], team2 := [b], winner := none, match_id := mid }
        :: pair_players (mid + 1) rest
  | _ => []

/-- `create_1v1_bracket` (main.py lines 931-942). -/
def create_1v1_bracket (participants : List Nat) : List Match :=
  pair_players 0 participants

/-- The team-building loop of `create_team_bracket` (main.py lines
949-954): slice `participants[i:i+team_size]` for `i` in steps of
`team_size`, keeping only the full slices. -/
def make_teams (ts : Nat) (ps : List Nat) : List (List Nat) :=
  if _h : 0 < ts ∧ ts ≤ ps.length then
    ps.take ts :: make_teams ts (ps.drop ts)
  else []
termination_by ps.length
decreasing_by
  simp only [List.length_drop]
  omega

/-- The match-building loop of `create_team_bracket` (main.py lines
957-964): pair consecutive teams, `match_id = len(matches)` so far. -/
def pair_teams (mid : Nat) : List (List Nat) → List Match
  | t1 :: t2 :: rest =>
      { team1 := t1, team2 := t2, winner := none, match_id := mid }
        :: pair_teams (mid + 1) rest
  | _ => []

/-- `create_team_bracket` (main.py lines 944-966). -/
def create_team_bracket (participants : List Nat) (fmt : Format) : List Match :=
  pair_teams 0 (make_teams (team_size fmt) participants)

/-- The format dispatch used at bracket creation and round advancement
(main.py lines 907-910, 1055-1058, 2433-2436). -/
def buildBracket (fmt : Format) (participants : List Nat) : List Match :=
  match fmt with
  | .f1v1 => create_1v1_bracket participants
  | _ => create_team_bracket participants fmt

/-- Spec-side pairing, written from the spec's words: "pair consecutive
elements (p[0],p[1]), (p[2],p[3]), …; drop a trailing unpaired element". -/
def spec_pairs : List Nat → List (List Nat × List Nat)
  | a :: b :: rest => ([a], [b]) :: spec_pairs rest
  | _ => []

/-- Spec-side team pairing, written from the spec's words: "pair
consecutive teams into matches exactly as in step 2, dropping a trailing
unpaired team". -/
def spec_team_pairs : List (List Nat) → List (List Nat × List Nat)
  | t1 :: t2 :: rest => (t1, t2) :: spec_team_pairs rest
  | _ => []

/-- Players mentioned in a list of matches, in match/side order. -/
def matchMembers (ms : List Match) : List Nat :=
  (ms.map (fun m => m.team1 ++ m.team2)).flatten

/-- The side named by a winner callback / `/winner` command argument. -/
inductive Side where
  | team1
  | team2
deriving DecidableEq, Repr

/-- Result of one winner-recording request.  The Python handlers answer
the user and return without touching any state on the rejection paths
(main.py lines 996-998, 2197-2199); `rejected` therefore carries the
unchanged tournament. -/
inductive StepResult where
  | rejected (t : Tournament)
  | ok (t : Tournament)
deriving DecidableEq, Repr

/-- The state carried by a `StepResult`. -/
def resultState : StepResult → Tournament
  | .rejected t => t
  | .ok t => t

/-- `bracket.get(current_round, [])` (main.py line 986). -/
def currentMatches (t : Tournament) : List Match :=
  (alookup t.rounds t.current_round).getD []

/-- The score update of main.py lines 1000-1009 (identically lines
2204-2213): default-initialise the `match_scores` entry if absent, then
increment the named side's counter in place. -/
def recordSideWin (scores : List (Nat × Score)) (mid : Nat) (side : Side) :
    List (Nat × Score) :=
  let scores := if (alookup scores mid).isNone then aset scores mid ⟨0, 0⟩ else scores
  let s := scoreGet scores mid
  match side with
  | .team1 => aset scores mid ⟨s.team1_wins + 1, s.team2_wins⟩
  | .team2 => aset scores mid ⟨s.team1_wins, s.team2_wins + 1⟩

/-- The best-of-N decision of main.py lines 1017-1031 (identically lines
2221-2237): if a side's counter has reached `wins_needed`, set the match
winner to that side's team (team1 checked first). -/
def decideMatch (m : Match) (s : Score) (wins_needed : Nat) : Match :=
  if s.team1_wins ≥ wins_needed then { m with winner := some m.team1 }
  else if s.team2_wins ≥ wins_needed then { m with winner := some m.team2 }
  else m

/-- In-place mutation of the found match inside the round's match list:
replace the first match carrying `mid` (the one `for m in matches`
found, main.py lines 990-994). -/
def setMatch (ms : List Match) (mid : Nat) (m' : Match) : List Match :=
  match ms with
  | [] => []
  | m :: rest =>
      if m.match_id = mid then m' :: rest else m :: setMatch rest mid m'

/-- `winners = [match.get('winner', []) for match in matches if
match.get('winner')]` (main.py line 1044): winners of the round in
match-array order; Python truthiness drops `None` and empty teams. -/
def winnersOf (ms : List Match) : List (List Nat) :=
  ms.filterMap (fun m =>
    match m.winner with
    | some w => if w = [] then none else some w
    | none => none)

/-- The fresh-score loop run over every newly created round (main.py
lines 918-921, 1060-1062, 2438-2440): `match_scores[match_id] =
{'team1_wins': 0, 'team2_wins': 0}`. -/
def initScores (scores : List (Nat × Score)) (ms : List Match) :
    List (Nat × Score) :=
  ms.foldl (fun sc m => aset sc m.match_id ⟨0, 0⟩) scores

/-- The round-advancement tail of `set_match_winner` (main.py lines
1039-1075; the `/winner` command path, lines 2253-2267 together with
`create_next_round`, lines 2421-2449, is the same logic): if every match
of the current round has its winner set, collect the winners in
match-array order; a single winner terminates the tournament with the
flattened winner stored in `bracket['winners']`, otherwise `round_(N+1)`
is built from the flattened winners and made current, with fresh score
entries for its matches. -/
def advanceIfRoundDone (t : Tournament) : Tournament :=
  let ms := currentMatches t
  if ms.all (fun m => m.winner.isSome) then
    let winners := winnersOf ms
    let winners_flat := winners.flatten
    if winners.length = 1 then
      { t with winners := winners_flat, finished := true }
    else
      let next := buildBracket t.format winners_flat
      { t with rounds := aset t.rounds (t.current_round + 1) next,
               current_round := t.current_round + 1,
               scores := initScores t.scores next }
  else t

/-- `set_match_winner` (main.py lines 968-1077) as a state transformer:
find the match with the given `match_id` in the current round; reject if
it is absent or already decided; otherwise record the side's win, decide
the match when a counter reaches `wins_needed`, and run the
round-advancement check. -/
def set_match_winner (t : Tournament) (mid : Nat) (side : Side) : StepResult :=
  let ms := currentMatches t
  match ms.find? (fun m => m.match_id = mid) with
  | none => .rejected t
  | some m =>
    if m.winner.isSome then .rejected t
    else
      let scores' := recordSideWin t.scores mid side
      let m' := decideMatch m (scoreGet scores' mid) t.wins_needed
      let matches' := setMatch ms mid m'
      let t' := { t with scores := scores',
                         rounds := aset t.rounds t.current_round matches' }
      .ok (advanceIfRoundDone t')

/-- The bracket-creation transition (main.py lines 898-921): shuffle a
copy of the participants, build round 1 with the format's builder, and
initialise a fresh score entry for each match.  The shuffled order is
passed explicitly, since `random.shuffle` is re-seeded per call. -/
def startTournament (fmt : Format) (wn : Nat) (participants shuffled : List Nat) :
    Tournament :=
  let ms := buildBracket fmt shuffled
  { format := fmt, wins_needed := wn, participants := participants,
    rounds := [(1, ms)], current_round := 1, winners := [],
    finished := false, scores := initScores [] ms }

/-- `second_place = team2 if winner == team1 else team1`, the losing-side
computation used both for 2nd place and for semifinal losers (main.py
lines 1113-1116, 1134-1137). -/
def loser (m : Match) : List Nat :=
  if m.winner = some m.team1 then m.team2 else m.team1

/-- The final-round search of `determine_tournament_winners` (main.py
lines 1087-1097): the largest round number among the bracket's
`round_N` keys, 0 when there is none numbered above 0. -/
def maxRound (rounds : List (Nat × List Match)) : Nat :=
  rounds.foldl (fun acc kr => if kr.1 > acc then kr.1 else acc) 0

/-- The 1st/2nd-place block of `determine_tournament_winners` (main.py
lines 1104-1122): take the first final-round match with a set winner;
1st place is its winner, 2nd place the other side; `break` afterwards. -/
def top2_placements (final_matches : List Match) : List (Nat × List Nat) :=
  match final_matches.find? (fun m => m.winner.isSome) with
  | some m => [(1, m.winner.getD []), (2, loser m)]
  | none => []

/-- The semifinal 3rd-place block of `determine_tournament_winners`
(main.py lines 1124-1144): when the final round number exceeds 1 and
round `mr - 1` is stored, collect the losers of its decided matches in
match-array order and award 3rd place to the first one, if any. -/
def semifinal_third (rounds : List (Nat × List Match)) (mr : Nat) :
    List (Nat × List Nat) :=
  if 1 < mr then
    match alookup rounds (mr - 1) with
    | none => []
    | some semifinal_matches =>
      match semifinal_matches.filterMap (fun m =>
          if m.winner.isSome then some (loser m) else none) with
      | [] => []
      | l :: _ => [(3, l)]
  else []

/-- The no-semifinal fallback block of `determine_tournament_winners`
(main.py lines 1146-1162): when fewer than 3 placements were assigned
and the bracket had a single round, scan the registered participants in
join order for one absent from the final round's matches; only the 1v1
format actually appends the 3rd place found. -/
def fallback_third (t : Tournament) (final_matches : List Match)
    (count : Nat) (mr : Nat) : List (Nat × List Nat) :=
  if count < 3 ∧ mr = 1 then
    let finalists := (final_matches.map (fun m => m.team1 ++ m.team2)).flatten
    if t.format = .f1v1 then
      match t.participants.find? (fun p => ¬ finalists.contains p) with
      | some p => [(3, [p])]
      | none => []
    else []
  else []

/-- `determine_tournament_winners` (main.py lines 1079-1164): 1st and 2nd
place from the first decided final-round match, 3rd place from the first
decided semifinal match's loser when a semifinal round exists, else (for
1v1 only) from the first registered participant absent from the final
round. -/
def determine_tournament_winners (t : Tournament) : List (Nat × List Nat) :=
  let mr := maxRound t.rounds
  if mr = 0 then []
  else
    match alookup t.rounds mr with
    | none => []
    | some final_matches =>
      let base := top2_placements final_matches ++ semifinal_third t.rounds mr
      base ++ fallback_third t final_matches base.length mr

/-- The reward loop of `finish_tournament` (main.py lines 1176-1188):
`for i, winner_data in enumerate(winners_data[:3])` awards place `i + 1`
to every member of that entry's team via `db.add_tournament_win`.
Returns the `(user_id, place)` pairs passed to the database. -/
def tournament_rewards (t : Tournament) : List (Nat × Nat) :=
  (((determine_tournament_winners t).take 3).enum.map (fun iw =>
    iw.2.2.map (fun u => (u, iw.1 + 1)))).flatten

/-- The per-state reading of the spec sentence "Exactly one Match per
round has `winner` unset until that round is decided". -/
def exactlyOneUnsetPerRound (t : Tournament) : Prop :=
  ∀ kr ∈ t.rounds, (¬ ∀ m ∈ kr.2, m.winner.isSome) →
    (kr.2.filter (fun m => m.winner = none)).length = 1

instance (t : Tournament) : Decidable (exactlyOneUnsetPerRound t) := by
  unfold exactlyOneUnsetPerRound
  infer_instance

/-! ### Association-list lemmas -/

theorem alookup_aset_self {α : Type} (l : List (Nat × α)) (k : Nat) (v : α) :
    alookup (aset l k v) k = some v := by
  induction l with
  | nil => simp [aset, alookup]
  | cons hd tl ih =>
      obtain ⟨j, w⟩ := hd
      by_cases h : j = k
      · simp [aset, h, alookup]
      · simp [aset, h, alookup, ih]

theorem alookup_aset_ne {α : Type} (l : List (Nat × α)) (j k : Nat) (v : α)
    (h : j ≠ k) : alookup (aset l j v) k = alookup l k := by
  induction l with
  | nil => simp [aset, alookup, h]
  | cons hd tl ih =>
      obtain ⟨i, w⟩ := hd
      by_cases hi : i = j
      · simp [aset, hi, alookup, h]
      · simp only [aset, hi, if_false, alookup]
        by_cases hk : i = k <;> simp [hk, ih]

theorem scoreGet_initScores (ms : List Match) (sc : List (Nat × Score)) (k : Nat) :
    scoreGet (initScores sc ms) k =
      if k ∈ ms.map Match.match_id then ⟨0, 0⟩ else scoreGet sc k := by
  induction ms generalizing sc with
  | nil => simp [initScores]
  | cons m rest ih =>
      simp only [initScores, List.foldl_cons, List.map_cons, List.mem_cons]
      rw [show List.foldl (fun sc m => aset sc m.match_id ⟨0, 0⟩) (aset sc m.match_id ⟨0, 0⟩) rest
            = initScores (aset sc m.match_id ⟨0, 0⟩) rest from rfl, ih]
      by_cases hk : k ∈ rest.map Match.match_id
      · simp [hk]
      · by_cases hm : k = m.match_id
        · simp [hk, hm, scoreGet, alookup_aset_self]
        · rw [if_neg (by simp [hm, hk]), if_neg (by simp [hm, hk])]
          simp only [scoreGet]
          rw [alookup_aset_ne _ _ _ _ (fun he => hm he.symm)]

/-! ### Bracket-builder lemmas -/

theorem pair_players_teams (mid : Nat) (ps : List Nat) :
    (pair_players mid ps).map (fun m => (m.team1, m.team2)) = spec_pairs ps := by
  match ps with
  | [] => simp [pair_players, spec_pairs]
  | [a] => simp [pair_players, spec_pairs]
  | a :: b :: rest =>
      simp [pair_players, spec_pairs, pair_players_teams (mid + 1) rest]

theorem pair_players_winner (mid : Nat) (ps : List Nat) :
    ∀ m ∈ pair_players mid ps, m.winner = none := by
  match ps with
  | [] => simp [pair_players]
  | [a] => simp [pair_players]
  | a :: b :: rest =>
      simp only [pair_players, List.mem_cons]
      rintro m (rfl | hm)
      · rfl
      · exact pair_players_winner (mid + 1) rest m hm

theorem pair_players_ids (mid : Nat) (ps : List Nat) :
    (pair_players mid ps).map Match.match_id
      = List.range' mid (pair_players mid ps).length := by
  match ps with
  | [] => simp [pair_players]
  | [a] => simp [pair_players]
  | a :: b :: rest =>
      simp [pair_players, List.range'_succ, pair_players_ids (mid + 1) rest]

theorem pair_players_members (mid : Nat) (ps : List Nat) :
    matchMembers (pair_players mid ps) = ps.take (2 * (ps.length / 2)) := by
  match ps with
  | [] => simp [pair_players, matchMembers]
  | [a] => simp [pair_players, matchMembers]
  | a :: b :: rest =>
      have ih := pair_players_members (mid + 1) rest
      simp only [matchMembers, pair_players, List.map_cons, List.flatten_cons] at ih ⊢
      have hdiv : 2 * ((a :: b :: rest).length / 2) = 2 * (rest.length / 2) + 1 + 1 := by
        simp only [List.length_cons]
        omega
      rw [hdiv, List.take_succ_cons, List.take_succ_cons, ← ih]
      rfl

theorem pair_teams_teams (mid : Nat) (ts : List (List Nat)) :
    (pair_teams mid ts).map (fun m => (m.team1, m.team2)) = spec_team_pairs ts := by
  match ts with
  | [] => simp [pair_teams, spec_team_pairs]
  | [a] => simp [pair_teams, spec_team_pairs]
  | a :: b :: rest =>
      simp [pair_teams, spec_team_pairs, pair_teams_teams (mid + 1) rest]

theorem pair_teams_winner (mid : Nat) (ts : List (List Nat)) :
    ∀ m ∈ pair_teams mid ts, m.winner = none := by
  match ts with
  | [] => simp [pair_teams]
  | [a] => simp [pair_teams]
  | a :: b :: rest =>
      simp only [pair_teams, List.mem_cons]
      rintro m (rfl | hm)
      · rfl
      · exact pair_teams_winner (mid + 1) rest m hm

theorem pair_teams_ids (mid : Nat) (ts : List (List Nat)) :
    (pair_teams mid ts).map Match.match_id
      = List.range' mid (pair_teams mid ts).length := by
  match ts with
  | [] => simp [pair_teams]
  | [a] => simp [pair_teams]
  | a :: b :: rest =>
      simp [pair_teams, List.range'_succ, pair_teams_ids (mid + 1) rest]

theorem make_teams_length (ts : Nat) (ps : List Nat) (h : 0 < ts) :
    (make_teams ts ps).length = ps.length / ts := by
  rw [make_teams]
  by_cases hle : ts ≤ ps.length
  · have ih := make_teams_length ts (ps.drop ts) h
    simp only [h, hle, and_true, true_and, dif_pos, List.length_cons, ih,
      List.length_drop]
    rw [Nat.div_eq_sub_div h hle]
  · have hc : ¬ (0 < ts ∧ ts ≤ ps.length) := by simp [hle]
    simp only [hc, dif_neg, not_false_iff, List.length_nil]
    rw [Nat.div_eq_of_lt (by omega)]
termination_by ps.length
decreasing_by
  simp only [List.length_drop]
  omega

theorem make_teams_sizes (ts : Nat) (ps : List Nat) :
    ∀ t ∈ make_teams ts ps, t.length = ts := by
  rw [make_teams]
  by_cases hc : 0 < ts ∧ ts ≤ ps.length
  · rw [dif_pos hc]
    intro t ht
    rcases List.mem_cons.mp ht with rfl | hm
    · simp only [List.length_take]
      omega
    · exact make_teams_sizes ts (ps.drop ts) t hm
  · rw [dif_neg hc]
    simp
termination_by ps.length
decreasing_by
  simp only [List.length_drop]
  omega

theorem make_teams_flatten (ts : Nat) (ps : List Nat) (h : 0 < ts) :
    (make_teams ts ps).flatten = ps.take (ts * (ps.length / ts)) := by
  rw [make_teams]
  by_cases hle : ts ≤ ps.length
  · have ih := make_teams_flatten ts (ps.drop ts) h
    simp only [h, hle, and_true, true_and, dif_pos, List.flatten_cons, ih,
      List.length_drop]
    rw [Nat.div_eq_sub_div h hle, Nat.mul_add, Nat.mul_one,
      Nat.add_comm (ts * ((ps.length - ts) / ts)) ts, List.take_add]
  · have hc : ¬ (0 < ts ∧ ts ≤ ps.length) := by simp [hle]
    have hdiv : ps.length / ts = 0 := Nat.div_eq_of_lt (by omega)
    simp [hc, hdiv]
termination_by ps.length
decreasing_by
  simp only [List.length_drop]
  omega

/-- Rebuilding teams from the flattened winners list recovers exactly the
winner teams when every winner team has the format's full size. -/
theorem make_teams_flatten_inv (ts : Nat) (ws : List (List Nat)) (h : 0 < ts)
    (hs : ∀ w ∈ ws, w.length = ts) : make_teams ts ws.flatten = ws := by
  induction ws with
  | nil =>
      rw [make_teams]
      have hc : ¬ (0 < ts ∧ ts ≤ (List.flatten ([] : List (List Nat))).length) := by
        rintro ⟨h1, h2⟩
        simp only [List.flatten_nil, List.length_nil, Nat.le_zero] at h2
        omega
      rw [dif_neg hc]
  | cons w rest ih =>
      have hw : w.length = ts := hs w (by simp)
      have hcond : 0 < ts ∧ ts ≤ (w :: rest).flatten.length := by
        refine ⟨h, ?_⟩
        simp only [List.flatten_cons, List.length_append]
        omega
      rw [make_teams, dif_pos hcond]
      simp only [List.flatten_cons]
      have h1 : (w ++ rest.flatten).take ts = w := by
        rw [List.take_append_of_le_length (by omega), List.take_of_length_le (by omega)]
      have h2 : (w ++ rest.flatten).drop ts = rest.flatten := by
        rw [← hw, List.drop_left]
      rw [h1, h2]
      exact congrArg (w :: ·) (ih (fun x hx => hs x (List.mem_cons_of_mem _ hx)))

theorem pair_players_length (mid : Nat) (ps : List Nat) :
    (pair_players mid ps).length = ps.length / 2 := by
  match ps with
  | [] => simp [pair_players]
  | [a] => simp [pair_players]
  | a :: b :: rest =>
      simp only [pair_players, List.length_cons, pair_players_length (mid + 1) rest]
      omega

theorem pair_players_sides (mid : Nat) (ps : List Nat) (hnd : ps.Nodup) :
    ∀ m ∈ pair_players mid ps,
      m.team1.length = 1 ∧ m.team2.length = 1 ∧ m.team1 ≠ m.team2 := by
  match ps with
  | [] => simp [pair_players]
  | [a] => simp [pair_players]
  | a :: b :: rest =>
      simp only [pair_players, List.mem_cons]
      rintro m (rfl | hm)
      · refine ⟨rfl, rfl, ?_⟩
        have hab : a ≠ b := by
          simp only [List.nodup_cons, List.mem_cons] at hnd
          exact fun he => hnd.1 (Or.inl he)
        simp [hab]
      · have hnd' : rest.Nodup := by
          simp only [List.nodup_cons] at hnd
          exact hnd.2.2
        exact pair_players_sides (mid + 1) rest hnd' m hm

theorem team_size_pos (fmt : Format) : 0 < team_size fmt := by
  cases fmt <;> simp [team_size]

/-- A string starting with a nonempty literal is nonempty. -/
theorem len_append_pos_left (s t : String) (h : 0 < s.length) :
    0 < (s ++ t).length := by
  rw [String.length_append]
  omega

/-! ### Claim theorems -/

/-- C4: `canStart` (check_tournament_start_conditions) depends only on
the format and the participant count, and returns true exactly when: for
1v1 the count is at least 2; for 2v2 it is between 4 and 12 and even;
for 3v3 it is between 6 and 18 and divisible by 3.  In particular it is
false for 2v2 with 3 participants and true with 4, false for 3v3 with 5
and true with 6, and a false result carries a (nonempty) diagnostic
message. -/
theorem C4_canStart (fmt : Format) (n : Nat) :
    ((check_tournament_start_conditions fmt n).1 = true ↔
      (match fmt with
       | .f1v1 => 2 ≤ n
       | .f2v2 => 4 ≤ n ∧ n ≤ 12 ∧ n % 2 = 0
       | .f3v3 => 6 ≤ n ∧ n ≤ 18 ∧ n % 3 = 0))
    ∧ ((check_tournament_start_conditions fmt n).1 = false →
        0 < (check_tournament_start_conditions fmt n).2.length)
    ∧ (check_tournament_start_conditions .f2v2 3).1 = false
    ∧ (check_tournament_start_conditions .f2v2 4).1 = true
    ∧ (check_tournament_start_conditions .f3v3 5).1 = false
    ∧ (check_tournament_start_conditions .f3v3 6).1 = true := by
  refine ⟨?_, ?_, by decide, by decide, by decide, by decide⟩
  · cases fmt <;>
      simp only [check_tournament_start_conditions, MIN_TOURNAMENT_PARTICIPANTS] <;>
      split_ifs <;> simp_all <;> omega
  · cases fmt <;>
      simp only [check_tournament_start_conditions, MIN_TOURNAMENT_PARTICIPANTS] <;>
      split_ifs <;> intro h <;>
      first
        | exact absurd h (by decide)
        | decide
        | ((repeat apply len_append_pos_left); decide)

/-- C4 witness: the theorem applied at format 2v2 with 3 participants. -/
theorem C4_canStart_witness :
    0 < (check_tournament_start_conditions .f2v2 3).2.length :=
  (C4_canStart .f2v2 3).2.1 (by decide)

/-- C5: the 1v1 bracket builder pairs consecutive participants
(p0,p1), (p2,p3), … one participant per side, dropping a trailing
unpaired element; for any 8 distinct participants it yields exactly 4
matches, each side a single participant distinct from the other side,
and the concatenation of all match members is exactly the input list. -/
theorem C5_bracket_1v1 (ps : List Nat) :
    ((create_1v1_bracket ps).map (fun m => (m.team1, m.team2)) = spec_pairs ps)
    ∧ (∀ m ∈ create_1v1_bracket ps, m.winner = none)
    ∧ (ps.length = 8 → ps.Nodup →
        (create_1v1_bracket ps).length = 4
        ∧ (∀ m ∈ create_1v1_bracket ps,
            m.team1.length = 1 ∧ m.team2.length = 1 ∧ m.team1 ≠ m.team2)
        ∧ matchMembers (create_1v1_bracket ps) = ps) := by
  refine ⟨pair_players_teams 0 ps, pair_players_winner 0 ps, ?_⟩
  intro h8 hnd
  refine ⟨?_, pair_players_sides 0 ps hnd, ?_⟩
  · rw [create_1v1_bracket, pair_players_length, h8]
  · rw [create_1v1_bracket, pair_players_members, h8]
    simpa using List.take_of_length_le (by omega)

/-- C5 witness: the theorem applied to the concrete participant list
1..8. -/
theorem C5_bracket_1v1_witness :
    (create_1v1_bracket [1, 2, 3, 4, 5, 6, 7, 8]).length = 4
    ∧ matchMembers (create_1v1_bracket [1, 2, 3, 4, 5, 6, 7, 8])
        = [1, 2, 3, 4, 5, 6, 7, 8] := by
  have h := (C5_bracket_1v1 [1, 2, 3, 4, 5, 6, 7, 8]).2.2 (by decide) (by decide)
  exact ⟨h.1, h.2.2⟩

/-- C6: the team bracket builder first partitions the participant list
into consecutive teams of the format's team size (2 for 2v2, 3 for 3v3),
dropping any trailing incomplete team, then pairs consecutive teams into
matches, dropping a trailing unpaired team; and both builders assign
each match a matchId equal to its zero-based position in the round's
match array, so matchIds restart from 0 in every round. -/
theorem C6_bracket_teams (ps : List Nat) (fmt : Format) :
    (∀ t ∈ make_teams (team_size fmt) ps, t.length = team_size fmt)
    ∧ (make_teams (team_size fmt) ps).length = ps.length / team_size fmt
    ∧ (make_teams (team_size fmt) ps).flatten
        = ps.take (team_size fmt * (ps.length / team_size fmt))
    ∧ ((create_team_bracket ps fmt).map (fun m => (m.team1, m.team2))
        = spec_team_pairs (make_teams (team_size fmt) ps))
    ∧ ((create_team_bracket ps fmt).map Match.match_id
        = List.range (create_team_bracket ps fmt).length)
    ∧ ((create_1v1_bracket ps).map Match.match_id
        = List.range (create_1v1_bracket ps).length) := by
  refine ⟨make_teams_sizes _ ps, make_teams_length _ ps (team_size_pos fmt),
    make_teams_flatten _ ps (team_size_pos fmt), pair_teams_teams 0 _, ?_, ?_⟩
  · rw [create_team_bracket, pair_teams_ids, List.range_eq_range']
  · rw [create_1v1_bracket, pair_players_ids, List.range_eq_range']

/-! ### Score-tracker lemmas -/

theorem recordSideWin_get (scores : List (Nat × Score)) (mid : Nat) (side : Side) :
    scoreGet (recordSideWin scores mid side) mid =
      match side with
      | .team1 => ⟨(scoreGet scores mid).team1_wins + 1, (scoreGet scores mid).team2_wins⟩
      | .team2 => ⟨(scoreGet scores mid).team1_wins, (scoreGet scores mid).team2_wins + 1⟩ := by
  by_cases h : alookup scores mid = none
  · cases side <;> simp [recordSideWin, h, scoreGet, alookup_aset_self]
  · obtain ⟨v, hv⟩ := Option.ne_none_iff_exists'.mp h
    cases side <;> simp [recordSideWin, hv, scoreGet, alookup_aset_self]

theorem decideMatch_winner_team1 (m : Match) (s : Score) (wn : Nat)
    (h : s.team1_wins ≥ wn) : decideMatch m s wn = { m with winner := some m.team1 } := by
  simp [decideMatch, h]

theorem decideMatch_winner_team2 (m : Match) (s : Score) (wn : Nat)
    (h1 : s.team1_wins < wn) (h2 : s.team2_wins ≥ wn) :
    decideMatch m s wn = { m with winner := some m.team2 } := by
  simp [decideMatch, Nat.not_le_of_lt h1, h2]

theorem decideMatch_continue (m : Match) (s : Score) (wn : Nat)
    (h1 : s.team1_wins < wn) (h2 : s.team2_wins < wn) :
    decideMatch m s wn = m := by
  simp [decideMatch, Nat.not_le_of_lt h1, Nat.not_le_of_lt h2]

/-- A concrete four-player 1v1 best-of-3 tournament (`wins_needed = 2`),
shuffled to the identity permutation: round 1 pairs 1 vs 2 and 3 vs 4. -/
def bo3demo : Tournament := startTournament .f1v1 2 [1, 2, 3, 4] [1, 2, 3, 4]

/-- A concrete four-player 1v1 tournament with `wins_needed = 1`. -/
def demo4 : Tournament := startTournament .f1v1 1 [1, 2, 3, 4] [1, 2, 3, 4]

/-- Fold a sequence of `(match_id, side)` winner recordings over a
tournament, keeping the unchanged state on rejected calls exactly as the
handlers do. -/
def runWins (t : Tournament) (steps : List (Nat × Side)) : Tournament :=
  steps.foldl (fun tt st => resultState (set_match_winner tt st.1 st.2)) t

/-- C2: recording a win for a side of an undecided match increments
exactly that side's counter by one; if the incremented counter reaches
`wins_needed`, the match's winner becomes that side's team, otherwise the
match is left unchanged (winner still unset).  In particular with
`wins_needed = 2`, wins team1, team1 decide the match for team1 at 2:0,
and wins team1, team2, team2 decide it for team2 at 1:2. -/
theorem C2_best_of_n (scores : List (Nat × Score)) (m : Match) (wn a b : Nat)
    (side : Side) (hw : m.winner = none)
    (hs : scoreGet scores m.match_id = ⟨a, b⟩) (ha : a < wn) (hb : b < wn) :
    (side = .team1 →
      scoreGet (recordSideWin scores m.match_id side) m.match_id = ⟨a + 1, b⟩
      ∧ (a + 1 = wn →
          (decideMatch m (scoreGet (recordSideWin scores m.match_id side) m.match_id)
            wn).winner = some m.team1)
      ∧ (a + 1 ≠ wn →
          decideMatch m (scoreGet (recordSideWin scores m.match_id side) m.match_id)
            wn = m
          ∧ (decideMatch m (scoreGet (recordSideWin scores m.match_id side) m.match_id)
              wn).winner = none))
    ∧ (side = .team2 →
      scoreGet (recordSideWin scores m.match_id side) m.match_id = ⟨a, b + 1⟩
      ∧ (b + 1 = wn →
          (decideMatch m (scoreGet (recordSideWin scores m.match_id side) m.match_id)
            wn).winner = some m.team2)
      ∧ (b + 1 ≠ wn →
          decideMatch m (scoreGet (recordSideWin scores m.match_id side) m.match_id)
            wn = m
          ∧ (decideMatch m (scoreGet (recordSideWin scores m.match_id side) m.match_id)
              wn).winner = none))
    ∧ (((currentMatches (runWins bo3demo [(0, .team1), (0, .team1)])).find?
          (fun mm => mm.match_id = 0)).map Match.winner = some (some [1])
        ∧ scoreGet (runWins bo3demo [(0, .team1), (0, .team1)]).scores 0 = ⟨2, 0⟩)
    ∧ (((currentMatches (runWins bo3demo [(0, .team1), (0, .team2), (0, .team2)])).find?
          (fun mm => mm.match_id = 0)).map Match.winner = some (some [2])
        ∧ scoreGet (runWins bo3demo [(0, .team1), (0, .team2), (0, .team2)]).scores 0
            = ⟨1, 2⟩) := by
  refine ⟨?_, ?_, by decide, by decide⟩
  · rintro rfl
    rw [recordSideWin_get, hs]
    refine ⟨rfl, ?_, ?_⟩
    · intro hreach
      rw [decideMatch_winner_team1 _ _ _ (by simp [hreach])]
    · intro hcont
      have he := decideMatch_continue m ⟨a + 1, b⟩ wn (by simp; omega) (by simp; omega)
      exact ⟨he, by rw [he]; exact hw⟩
  · rintro rfl
    rw [recordSideWin_get, hs]
    refine ⟨rfl, ?_, ?_⟩
    · intro hreach
      rw [decideMatch_winner_team2 _ _ _ (by simp [ha]) (by simp [hreach])]
    · intro hcont
      have he := decideMatch_continue m ⟨a, b + 1⟩ wn (by simp; omega) (by simp; omega)
      exact ⟨he, by rw [he]; exact hw⟩

/-- C2 witness: the theorem applied to the first match of the concrete
best-of-3 tournament with an empty score map. -/
theorem C2_best_of_n_witness :
    scoreGet (recordSideWin [] 0 .team1) 0 = ⟨1, 0⟩ :=
  ((C2_best_of_n [] { team1 := [1], team2 := [2], winner := none, match_id := 0 }
    2 0 0 .team1 rfl (by decide) (by decide) (by decide)).1 rfl).1

/-- `bracket.get('round_<k>', [])`: the match list of round `k`. -/
def roundMatches (t : Tournament) (k : Nat) : List Match :=
  (alookup t.rounds k).getD []

theorem aset_length_of_lookup {α : Type} (l : List (Nat × α)) (k : Nat) (v w : α)
    (h : alookup l k = some v) : (aset l k w).length = l.length := by
  induction l with
  | nil => simp [alookup] at h
  | cons hd tl ih =>
      obtain ⟨j, x⟩ := hd
      by_cases hj : j = k
      · simp [aset, hj]
      · simp only [alookup, hj, if_false] at h
        simp [aset, hj, ih h]

theorem lookup_of_find?_currentMatches (t : Tournament) (p : Match → Bool) (m : Match)
    (h : (currentMatches t).find? p = some m) :
    alookup t.rounds t.current_round = some (currentMatches t) := by
  cases hl : alookup t.rounds t.current_round with
  | none =>
      rw [currentMatches, hl] at h
      simp at h
  | some v => simp [currentMatches, hl]

/-- C8: attempting to record a win for a match whose winner is already
set is rejected and leaves the entire tournament state unchanged — the
handler returns before touching the score map, the match or the
bracket. -/
theorem C8_reject_decided (t : Tournament) (mid : Nat) (side : Side) (m : Match)
    (hfind : (currentMatches t).find? (fun mm => mm.match_id = mid) = some m)
    (hw : m.winner.isSome) :
    set_match_winner t mid side = .rejected t
    ∧ resultState (set_match_winner t mid side) = t := by
  simp only [set_match_winner]
  rw [hfind]
  simp [hw, resultState]

/-- C8 witness: in the concrete `wins_needed = 1` tournament, the first
recorded win decides match 0; a second call on the same match is
rejected with the state exactly as before the call. -/
theorem C8_reject_decided_witness :
    set_match_winner (resultState (set_match_winner demo4 0 .team1)) 0 .team1
      = .rejected (resultState (set_match_winner demo4 0 .team1)) :=
  (C8_reject_decided (resultState (set_match_winner demo4 0 .team1)) 0 .team1
    { team1 := [1], team2 := [2], winner := some [1], match_id := 0 }
    (by decide) (by decide)).1

/-- C1: after a recorded win through `set_match_winner` on an undecided
match: if some match of the current round is still undecided, the round
stays active (current round, finished flag, round count and winners all
unchanged); if all matches of the current round are now decided, the
winners are collected in match-array order as `winnersOf`; when exactly
one winner remains, the tournament is finished with the flattened sole
team stored in the bracket winners field, otherwise round N+1 is built by
the bracket builder from the flattened winners (in decided order, no
reshuffle) and every new match receives a fresh 0:0 score entry; and
refolding a flattened winner list whose teams all have the format's team
size recovers exactly those teams, so team composition is preserved. -/
theorem C1_round_advancement (t : Tournament) (mid : Nat) (side : Side) (m : Match)
    (t' : Tournament)
    (hfind : (currentMatches t).find? (fun mm => mm.match_id = mid) = some m)
    (hnone : m.winner = none)
    (hok : set_match_winner t mid side = .ok t') :
    ((∃ mm ∈ roundMatches t' t.current_round, mm.winner = none) →
        t'.current_round = t.current_round ∧ t'.finished = t.finished
        ∧ t'.rounds.length = t.rounds.length ∧ t'.winners = t.winners)
    ∧ ((∀ mm ∈ roundMatches t' t.current_round, mm.winner.isSome) →
        ((winnersOf (roundMatches t' t.current_round)).length = 1 →
            t'.finished = true
            ∧ t'.winners = (winnersOf (roundMatches t' t.current_round)).flatten
            ∧ t'.current_round = t.current_round)
        ∧ ((winnersOf (roundMatches t' t.current_round)).length ≠ 1 →
            t'.current_round = t.current_round + 1
            ∧ roundMatches t' t'.current_round
                = buildBracket t.format
                    (winnersOf (roundMatches t' t.current_round)).flatten
            ∧ (∀ mm ∈ buildBracket t.format
                  (winnersOf (roundMatches t' t.current_round)).flatten,
                scoreGet t'.scores mm.match_id = ⟨0, 0⟩)
            ∧ t'.finished = t.finished))
    ∧ (∀ ws : List (List Nat), (∀ w ∈ ws, w.length = team_size t.format) →
        make_teams (team_size t.format) ws.flatten = ws) := by
  have hmk : ∀ ws : List (List Nat), (∀ w ∈ ws, w.length = team_size t.format) →
      make_teams (team_size t.format) ws.flatten = ws :=
    fun ws hws => make_teams_flatten_inv _ ws (team_size_pos t.format) hws
  have hcur0 : alookup t.rounds t.current_round = some (currentMatches t) :=
    lookup_of_find?_currentMatches t _ m hfind
  simp only [set_match_winner] at hok
  rw [hfind] at hok
  simp only [hnone, Option.isSome_none, Bool.false_eq_true, if_false] at hok
  set scores' := recordSideWin t.scores mid side with hscores
  set m' := decideMatch m (scoreGet scores' mid) t.wins_needed with hm'
  set ms2 := setMatch (currentMatches t) mid m' with hms2
  set t2 : Tournament :=
    { t with scores := scores', rounds := aset t.rounds t.current_round ms2 }
    with ht2
  have hcur2 : currentMatches t2 = ms2 := by
    simp [currentMatches, ht2, alookup_aset_self]
  have hokeq : advanceIfRoundDone t2 = t' := by
    exact StepResult.ok.inj hok
  by_cases hall : ms2.all (fun mm => mm.winner.isSome)
  · by_cases hlen : (winnersOf ms2).length = 1
    · -- single winner: tournament finished
      have ht' : t' = { t2 with winners := (winnersOf ms2).flatten, finished := true } := by
        rw [← hokeq, advanceIfRoundDone, hcur2]
        simp [hall, hlen]
      have hms' : roundMatches t' t.current_round = ms2 := by
        rw [ht']
        simp [roundMatches, ht2, alookup_aset_self]
      refine ⟨?_, ?_, hmk⟩
      · rintro ⟨mm, hmm, hn⟩
        rw [hms'] at hmm
        have := List.all_eq_true.mp hall mm hmm
        simp [hn] at this
      · intro _
        constructor
        · intro _
          rw [hms', ht']
          exact ⟨rfl, rfl, rfl⟩
        · intro hne
          rw [hms'] at hne
          exact absurd hlen hne
    · -- several winners: next round is built
      have ht' : t' = { t2 with
          rounds := aset t2.rounds (t.current_round + 1)
            (buildBracket t.format (winnersOf ms2).flatten),
          current_round := t.current_round + 1,
          scores := initScores t2.scores
            (buildBracket t.format (winnersOf ms2).flatten) } := by
        rw [← hokeq, advanceIfRoundDone, hcur2]
        simp [hall, hlen]
      have hms' : roundMatches t' t.current_round = ms2 := by
        rw [ht']
        simp only [roundMatches]
        rw [alookup_aset_ne _ _ _ _ (by omega)]
        simp [ht2, alookup_aset_self]
      refine ⟨?_, ?_, hmk⟩
      · rintro ⟨mm, hmm, hn⟩
        rw [hms'] at hmm
        have := List.all_eq_true.mp hall mm hmm
        simp [hn] at this
      · intro _
        constructor
        · intro h1
          rw [hms'] at h1
          exact absurd h1 hlen
        · intro _
          rw [hms', ht']
          refine ⟨rfl, ?_, ?_, rfl⟩
          · simp [roundMatches, alookup_aset_self]
          · intro mm hmm
            simp only [ht2]
            rw [scoreGet_initScores]
            simp only [List.mem_map]
            rw [if_pos ⟨mm, hmm, rfl⟩]
  · -- some match still open: the round stays active
    have ht' : t' = t2 := by
      rw [← hokeq, advanceIfRoundDone, hcur2]
      simp [hall]
    have hms' : roundMatches t' t.current_round = ms2 := by
      rw [ht']
      simp [roundMatches, ht2, alookup_aset_self]
    refine ⟨?_, ?_, hmk⟩
    · intro _
      rw [ht']
      refine ⟨rfl, rfl, ?_, rfl⟩
      simp only [ht2]
      exact aset_length_of_lookup t.rounds t.current_round _ ms2 hcur0
    · intro hdec
      rw [hms'] at hdec
      exfalso
      exact hall (List.all_eq_true.mpr (fun mm hmm => hdec mm hmm))

/-- C1 witness: in the concrete `wins_needed = 1` four-player tournament,
deciding match 1 after match 0 completes the round; the theorem's
all-decided branch fires and builds round 2 from the two winners. -/
theorem C1_round_advancement_witness :
    set_match_winner (resultState (set_match_winner demo4 0 .team1)) 1 .team1
      = .ok (resultState (set_match_winner
          (resultState (set_match_winner demo4 0 .team1)) 1 .team1))
    ∧ (resultState (set_match_winner
        (resultState (set_match_winner demo4 0 .team1)) 1 .team1)).current_round = 2 := by
  have h := C1_round_advancement
    (resultState (set_match_winner demo4 0 .team1)) 1 .team1
    { team1 := [3], team2 := [4], winner := none, match_id := 1 }
    (resultState (set_match_winner
      (resultState (set_match_winner demo4 0 .team1)) 1 .team1))
    (by decide) (by decide) (by decide)
  refine ⟨by decide, ?_⟩
  have h2 := (h.2.1 (by decide)).2 (by decide)
  exact h2.1

/-- Sealed or still-running rounds at or before the current one keep
their stored match list across the round-advancement step. -/
theorem advanceIfRoundDone_lookup (t : Tournament) (k : Nat)
    (hk : k ≤ t.current_round) :
    alookup (advanceIfRoundDone t).rounds k = alookup t.rounds k := by
  rw [advanceIfRoundDone]
  by_cases hall : (currentMatches t).all (fun m => m.winner.isSome) = true
  · by_cases hlen : (winnersOf (currentMatches t)).length = 1
    · simp [hall, hlen]
    · simp only [hall, hlen, if_true, if_false]
      exact alookup_aset_ne _ _ _ _ (by omega)
  · simp [hall]

/-- C9 counterexample: the claim says exactly one match per round has
winner unset until the round is decided; but the state produced by
building a four-player 1v1 bracket (`startTournament` on four joined
players, identity shuffle — exactly the state after the start-bracket
transition of main.py lines 898-921) has a round with two undecided
matches. -/
theorem C9_counterexample :
    ¬ exactlyOneUnsetPerRound (startTournament .f1v1 1 [1, 2, 3, 4] [1, 2, 3, 4]) := by
  decide

/-- C9 (amended): every match of a freshly built round starts with winner
unset (so an undecided round can have any number of unset winners, not
exactly one); and once all matches of a round at or before the current
one have winner set, that round's stored match list is never mutated by
any subsequent successful recordWin call. -/
theorem C9_sealed_rounds :
    (∀ (fmt : Format) (ps : List Nat), ∀ m ∈ buildBracket fmt ps, m.winner = none)
    ∧ (∀ (t : Tournament) (mid : Nat) (side : Side) (t' : Tournament) (k : Nat)
        (ms : List Match),
        set_match_winner t mid side = .ok t' →
        k ≤ t.current_round →
        alookup t.rounds k = some ms →
        (∀ m ∈ ms, m.winner.isSome) →
        alookup t'.rounds k = some ms) := by
  constructor
  · intro fmt ps m hm
    cases fmt
    · exact pair_players_winner 0 ps m hm
    · exact pair_teams_winner 0 _ m hm
    · exact pair_teams_winner 0 _ m hm
  · intro t mid side t' k ms hok hk hlk hdec
    cases hfind : (currentMatches t).find? (fun mm => mm.match_id = mid) with
    | none =>
        simp only [set_match_winner, hfind] at hok
        exact absurd hok (by simp)
    | some m =>
        by_cases hw : m.winner.isSome = true
        · simp only [set_match_winner, hfind, hw, if_true] at hok
          exact absurd hok (by simp)
        · by_cases hkc : k = t.current_round
          · exfalso
            have hmem := List.mem_of_find?_eq_some hfind
            rw [hkc] at hlk
            have hms : currentMatches t = ms := by
              simp [currentMatches, hlk]
            exact hw (hdec m (hms ▸ hmem))
          · simp only [set_match_winner, hfind] at hok
            rw [if_neg hw] at hok
            have hokeq := StepResult.ok.inj hok
            rw [← hokeq, advanceIfRoundDone_lookup _ k (by simp; omega)]
            rw [alookup_aset_ne _ _ _ _ (fun he => hkc he.symm), hlk]

/-- C9 witness: after the two round-1 matches of the concrete tournament
are decided, round 2 is current and round 1 is sealed; recording the
round-2 win leaves round 1's match list untouched. -/
theorem C9_sealed_rounds_witness :
    alookup (resultState (set_match_winner
        (runWins demo4 [(0, .team1), (1, .team1)]) 0 .team1)).rounds 1
      = some [{ team1 := [1], team2 := [2], winner := some [1], match_id := 0 },
              { team1 := [3], team2 := [4], winner := some [3], match_id := 1 }] :=
  C9_sealed_rounds.2 (runWins demo4 [(0, .team1), (1, .team1)]) 0 .team1
    (resultState (set_match_winner
      (runWins demo4 [(0, .team1), (1, .team1)]) 0 .team1)) 1
    [{ team1 := [1], team2 := [2], winner := some [1], match_id := 0 },
     { team1 := [3], team2 := [4], winner := some [3], match_id := 1 }]
    (by decide) (by decide) (by decide) (by decide)

/-- The head of the semifinal-losers list is the loser of the first
decided semifinal match in match-array order. -/
theorem semifinal_losers_head (sms : List Match) :
    (sms.filterMap (fun m => if m.winner.isSome then some (loser m) else none)).head?
      = (sms.find? (fun m => m.winner.isSome)).map loser := by
  induction sms with
  | nil => simp
  | cons m rest ih =>
      by_cases h : m.winner.isSome
      · simp [List.find?_cons, List.filterMap_cons, h]
      · simp [List.find?_cons, List.filterMap_cons, h, ih]

/-- The concrete four-player 1v1 tournament played to the end: both
round-1 matches then the final, winner 1 over 3. -/
def finished4 : Tournament :=
  runWins demo4 [(0, .team1), (1, .team1), (0, .team1)]

/-- A three-player 1v1 tournament: the builder drops the unpaired third
player, and the single match decides the tournament in one round. -/
def finished3 : Tournament :=
  resultState (set_match_winner (startTournament .f1v1 1 [1, 2, 3] [1, 2, 3]) 0 .team1)

/-- C3: for a finished tournament whose final round contains a decided
match, 1st place is that match's winner and 2nd place the other side of
the same match; and when the final round number exceeds 1, 3rd place is
the losing side of the first decided semifinal match in match-array
order (and no 3rd place comes from the semifinal when none of its
matches is decided). -/
theorem C3_placements (t : Tournament) (fms : List Match) (fm : Match)
    (w : List Nat)
    (_hfin : t.finished = true)
    (hmr : 0 < maxRound t.rounds)
    (hfinal : alookup t.rounds (maxRound t.rounds) = some fms)
    (hfm : fms.find? (fun m => m.winner.isSome) = some fm)
    (hw : fm.winner = some w) :
    (determine_tournament_winners t).take 2 = [(1, w), (2, loser fm)]
    ∧ (1 < maxRound t.rounds →
        ∀ sms, alookup t.rounds (maxRound t.rounds - 1) = some sms →
          (∀ sm, sms.find? (fun m => m.winner.isSome) = some sm →
              (determine_tournament_winners t).drop 2 = [(3, loser sm)])
          ∧ (sms.find? (fun m => m.winner.isSome) = none →
              (determine_tournament_winners t).drop 2 = [])) := by
  have htop : top2_placements fms = [(1, w), (2, loser fm)] := by
    simp [top2_placements, hfm, hw]
  have hD : determine_tournament_winners t
      = ([(1, w), (2, loser fm)] ++ semifinal_third t.rounds (maxRound t.rounds))
        ++ fallback_third t fms
            ([(1, w), (2, loser fm)]
              ++ semifinal_third t.rounds (maxRound t.rounds)).length
            (maxRound t.rounds) := by
    unfold determine_tournament_winners
    rw [if_neg (by omega), hfinal]
    show (let base := top2_placements fms ++ semifinal_third t.rounds (maxRound t.rounds);
      base ++ fallback_third t fms base.length (maxRound t.rounds)) = _
    rw [htop]
  constructor
  · rw [hD]
    rfl
  · intro hmr1 sms hsf
    have hfb : fallback_third t fms
        ([(1, w), (2, loser fm)]
          ++ semifinal_third t.rounds (maxRound t.rounds)).length
        (maxRound t.rounds) = [] := by
      rw [fallback_third, if_neg (by omega)]
    constructor
    · intro sm hsm
      have hsemi : semifinal_third t.rounds (maxRound t.rounds) = [(3, loser sm)] := by
        rw [semifinal_third, if_pos hmr1, hsf]
        have hh := semifinal_losers_head sms
        rw [hsm] at hh
        cases hL : sms.filterMap (fun m =>
            if m.winner.isSome then some (loser m) else none) with
        | nil => rw [hL] at hh; simp at hh
        | cons l rest =>
            have hl : l = loser sm := by
              rw [hL] at hh
              simpa using hh
            simp only [hL, hl]
      rw [hD, hfb, List.append_nil, hsemi]
      rfl
    · intro hnone
      have hsemi : semifinal_third t.rounds (maxRound t.rounds) = [] := by
        rw [semifinal_third, if_pos hmr1, hsf]
        have hh := semifinal_losers_head sms
        rw [hnone] at hh
        cases hL : sms.filterMap (fun m =>
            if m.winner.isSome then some (loser m) else none) with
        | nil => simp only [hL]
        | cons l rest =>
            rw [hL] at hh
            simp at hh
      rw [hD, hfb, List.append_nil, hsemi]
      rfl

/-- C3 witness: the concrete four-player 1v1 bracket played to the end
yields exactly the three placements final winner 1st, final loser 2nd,
first round-1 match's loser 3rd. -/
theorem C3_placements_witness :
    determine_tournament_winners finished4 = [(1, [1]), (2, [3]), (3, [2])] := by
  have h := C3_placements finished4
    [{ team1 := [1], team2 := [3], winner := some [1], match_id := 0 }]
    { team1 := [1], team2 := [3], winner := some [1], match_id := 0 }
    [1] (by decide) (by decide) (by decide) (by decide) (by decide)
  have h3 := ((h.2 (by decide)
    [{ team1 := [1], team2 := [2], winner := some [1], match_id := 0 },
     { team1 := [3], team2 := [4], winner := some [3], match_id := 1 }]
    (by decide)).1
    { team1 := [1], team2 := [2], winner := some [1], match_id := 0 } (by decide))
  rw [← List.take_append_drop 2 (determine_tournament_winners finished4), h.1, h3]
  rfl

/-- C7: for a tournament decided in a single round (final round number 1)
whose sole final match is decided: with format 1v1, 3rd place is the
first registered participant in join order who does not appear in the
final match; with a team format no 3rd place is assigned at all. -/
theorem C7_fallback_third (t : Tournament) (fm : Match)
    (_hfin : t.finished = true)
    (hmr1 : maxRound t.rounds = 1)
    (hfinal : alookup t.rounds 1 = some [fm])
    (hfmw : fm.winner.isSome) :
    (t.format = .f1v1 →
        (determine_tournament_winners t).drop 2
          = (match t.participants.find?
                (fun p => ¬ (fm.team1 ++ fm.team2).contains p) with
             | some p => [(3, [p])]
             | none => []))
    ∧ (t.format ≠ .f1v1 → (determine_tournament_winners t).drop 2 = []) := by
  have hfind : List.find? (fun m => m.winner.isSome) [fm] = some fm := by
    simp [List.find?_cons, hfmw]
  have htop : top2_placements [fm] = [(1, fm.winner.getD []), (2, loser fm)] := by
    rw [top2_placements, hfind]
  have hsemi : semifinal_third t.rounds 1 = [] := by
    rw [semifinal_third, if_neg (by omega)]
  have hD : determine_tournament_winners t
      = ([(1, fm.winner.getD []), (2, loser fm)] ++ semifinal_third t.rounds 1)
        ++ fallback_third t [fm]
            ([(1, fm.winner.getD []), (2, loser fm)]
              ++ semifinal_third t.rounds 1).length 1 := by
    unfold determine_tournament_winners
    rw [hmr1, if_neg (by omega), hfinal]
    show (let base := top2_placements [fm] ++ semifinal_third t.rounds 1;
      base ++ fallback_third t [fm] base.length 1) = _
    rw [htop]
  rw [hD, hsemi, List.append_nil]
  have hcnt : ([(1, fm.winner.getD []), (2, loser fm)] : List (Nat × List Nat)).length = 2 :=
    rfl
  constructor
  · intro hfmt
    rw [fallback_third, if_pos (by rw [hcnt]; exact ⟨by omega, rfl⟩)]
    rw [if_pos hfmt]
    simp only [List.map_cons, List.map_nil, List.flatten_cons, List.flatten_nil,
      List.append_nil]
    rfl
  · intro hfmt
    rw [fallback_third, if_pos (by rw [hcnt]; exact ⟨by omega, rfl⟩)]
    rw [if_neg hfmt]
    rfl

/-- C7 witness: in the three-player 1v1 tournament decided in one round,
player 3 (who sat out the bracket) takes 3rd place. -/
theorem C7_fallback_third_witness :
    (determine_tournament_winners finished3).drop 2 = [(3, [3])] := by
  have h := (C7_fallback_third finished3
    { team1 := [1], team2 := [2], winner := some [1], match_id := 0 }
    (by decide) (by decide) (by decide) (by decide)).1 (by decide)
  rw [h]
  rfl

/-- The reward loop pays every member of the placed teams, in placement
order: the paid players are the flattened teams of the (at most three)
placements. -/
theorem rewards_players_aux (l : List (Nat × List Nat)) (n : Nat) :
    (((List.enumFrom n l).map (fun iw => iw.2.2.map (fun u => (u, iw.1 + 1)))).flatten).map
        Prod.fst
      = (l.map Prod.snd).flatten := by
  induction l generalizing n with
  | nil => simp
  | cons a rest ih =>
      simp only [List.enumFrom_cons, List.map_cons, List.flatten_cons, List.map_append,
        List.map_map]
      rw [ih]
      congr 1
      have hcomp : (Prod.fst ∘ fun u : Nat => (u, n + 1)) = id := by
        funext u
        rfl
      rw [hcomp, List.map_id]

theorem tournament_rewards_fst (t : Tournament) :
    (tournament_rewards t).map Prod.fst
      = (((determine_tournament_winners t).take 3).map Prod.snd).flatten := by
  rw [tournament_rewards]
  exact rewards_players_aux _ 0

/-- Distinct matches of a round with globally distinct members have
disjoint member lists, and each match's own members are distinct. -/
theorem members_props (sms : List Match) (hnd : (matchMembers sms).Nodup) :
    (∀ m ∈ sms, (m.team1 ++ m.team2).Nodup)
    ∧ (∀ m1 ∈ sms, ∀ m2 ∈ sms, m1 ≠ m2 →
        ∀ x, x ∈ m1.team1 ++ m1.team2 → x ∈ m2.team1 ++ m2.team2 → False) := by
  rw [matchMembers, List.nodup_flatten] at hnd
  obtain ⟨h1, h2⟩ := hnd
  rw [List.pairwise_map] at h2
  constructor
  · intro m hm
    exact h1 _ (List.mem_map_of_mem _ hm)
  · intro m1 hm1 m2 hm2 hne x hx1 hx2
    have hsym : Symmetric (fun a b : Match =>
        List.Disjoint (a.team1 ++ a.team2) (b.team1 ++ b.team2)) :=
      fun a b hab => List.Disjoint.symm hab
    exact (h2.forall hsym hm1 hm2 hne) hx1 hx2

theorem semifinal_third_of_find? (rounds : List (Nat × List Match)) (mr : Nat)
    (sms : List Match) (sm : Match) (hmr1 : 1 < mr)
    (hsf : alookup rounds (mr - 1) = some sms)
    (hfd : sms.find? (fun m => m.winner.isSome) = some sm) :
    semifinal_third rounds mr = [(3, loser sm)] := by
  rw [semifinal_third, if_pos hmr1, hsf]
  have hh := semifinal_losers_head sms
  rw [hfd] at hh
  cases hL : sms.filterMap (fun m =>
      if m.winner.isSome then some (loser m) else none) with
  | nil => rw [hL] at hh; simp at hh
  | cons l rest =>
      have hl : l = loser sm := by
        rw [hL] at hh
        simpa using hh
      simp only [hL, hl]

/-- Zeta-reduced form of the fallback block when its guard holds. -/
theorem fallback_third_eq (t : Tournament) (fms : List Match) (count mr : Nat)
    (hc : count < 3) (hmr : mr = 1) :
    fallback_third t fms count mr
      = if t.format = .f1v1 then
          (match t.participants.find?
              (fun p => ¬ ((fms.map (fun m => m.team1 ++ m.team2)).flatten).contains p) with
           | some p => [(3, [p])]
           | none => [])
        else [] := by
  rw [fallback_third, if_pos ⟨hc, hmr⟩]

/-- C10: for a finished tournament in a well-formed state (decided final
match with two disjoint nonempty distinct sides; when a semifinal round
exists, its matches have globally distinct members, winners drawn from
their own sides, nonempty teams, and the final's sides are semifinal
winners), the placement resolver returns at most three placements whose
places are exactly 1, 2 (and possibly 3) in ascending order, no team
occupies two placements, and the reward loop pays every placed player
exactly once. -/
theorem C10_placement_consistency (t : Tournament) (fms : List Match) (fm : Match)
    (hmr : 0 < maxRound t.rounds)
    (hfinal : alookup t.rounds (maxRound t.rounds) = some fms)
    (hfm : fms.find? (fun m => m.winner.isSome) = some fm)
    (hwor : fm.winner = some fm.team1 ∨ fm.winner = some fm.team2)
    (hfnd : (fm.team1 ++ fm.team2).Nodup)
    (hne1 : fm.team1 ≠ []) (_hne2 : fm.team2 ≠ [])
    (hsemi : 1 < maxRound t.rounds →
      ∃ sms, alookup t.rounds (maxRound t.rounds - 1) = some sms
        ∧ (matchMembers sms).Nodup
        ∧ (∀ m ∈ sms, ∀ wt, m.winner = some wt → wt = m.team1 ∨ wt = m.team2)
        ∧ (∀ m ∈ sms, m.team1 ≠ [] ∧ m.team2 ≠ [])
        ∧ (∃ m1 ∈ sms, m1.winner = some fm.team1)
        ∧ (∃ m2 ∈ sms, m2.winner = some fm.team2)) :
    ((determine_tournament_winners t).map Prod.fst = [1, 2]
      ∨ (determine_tournament_winners t).map Prod.fst = [1, 2, 3])
    ∧ ((determine_tournament_winners t).map Prod.snd).Pairwise (· ≠ ·)
    ∧ ((tournament_rewards t).map Prod.fst).Nodup
    ∧ (determine_tournament_winners t).length ≤ 3 := by
  have hnd1 : fm.team1.Nodup := (List.nodup_append.mp hfnd).1
  have hnd2 : fm.team2.Nodup := (List.nodup_append.mp hfnd).2.1
  have hdisj12 : List.Disjoint fm.team1 fm.team2 := (List.nodup_append.mp hfnd).2.2
  have hne12 : fm.team1 ≠ fm.team2 := by
    intro he
    obtain ⟨x, hx⟩ := List.exists_mem_of_ne_nil _ hne1
    exact hdisj12 hx (he ▸ hx)
  have hol : (fm.winner.getD [] = fm.team1 ∧ loser fm = fm.team2)
      ∨ (fm.winner.getD [] = fm.team2 ∧ loser fm = fm.team1) := by
    cases hwor with
    | inl h => exact Or.inl ⟨by rw [h]; rfl, by rw [loser, if_pos h]⟩
    | inr h =>
        refine Or.inr ⟨by rw [h]; rfl, ?_⟩
        have hc : ¬ (fm.winner = some fm.team1) := by
          rw [h]
          intro he
          exact hne12 (Option.some.inj he).symm
        rw [loser, if_neg hc]
  have hwl2ne : fm.winner.getD [] ≠ loser fm := by
    rcases hol with h | h
    · rw [h.1, h.2]; exact hne12
    · rw [h.1, h.2]; exact hne12.symm
  have hwnd : (fm.winner.getD []).Nodup := by
    rcases hol with h | h
    · rw [h.1]; exact hnd1
    · rw [h.1]; exact hnd2
  have hl2nd : (loser fm).Nodup := by
    rcases hol with h | h
    · rw [h.2]; exact hnd2
    · rw [h.2]; exact hnd1
  have hdisjwl2 : List.Disjoint (fm.winner.getD []) (loser fm) := by
    rcases hol with h | h
    · rw [h.1, h.2]; exact hdisj12
    · rw [h.1, h.2]; exact fun a hx hy => hdisj12 hy hx
  have htop : top2_placements fms = [(1, fm.winner.getD []), (2, loser fm)] := by
    rw [top2_placements, hfm]
  have hD : determine_tournament_winners t
      = ([(1, fm.winner.getD []), (2, loser fm)]
          ++ semifinal_third t.rounds (maxRound t.rounds))
        ++ fallback_third t fms
            ([(1, fm.winner.getD []), (2, loser fm)]
              ++ semifinal_third t.rounds (maxRound t.rounds)).length
            (maxRound t.rounds) := by
    unfold determine_tournament_winners
    rw [if_neg (by omega), hfinal]
    show (let base := top2_placements fms ++ semifinal_third t.rounds (maxRound t.rounds);
      base ++ fallback_third t fms base.length (maxRound t.rounds)) = _
    rw [htop]
  by_cases hmr1 : 1 < maxRound t.rounds
  · obtain ⟨sms, hsf, hnodup, hswin, hsnem, ⟨m1, hm1m, hm1w⟩, ⟨m2, hm2m, hm2w⟩⟩ :=
      hsemi hmr1
    obtain ⟨hinner, hcross⟩ := members_props sms hnodup
    cases hfd : sms.find? (fun m => m.winner.isSome) with
    | none =>
        exfalso
        have hno := List.find?_eq_none.mp hfd m1 hm1m
        rw [hm1w] at hno
        simp at hno
    | some sm =>
        have hsmm : sm ∈ sms := List.mem_of_find?_eq_some hfd
        have hsemi3 := semifinal_third_of_find? t.rounds (maxRound t.rounds) sms sm
          hmr1 hsf hfd
        have hfb : fallback_third t fms
            ([(1, fm.winner.getD []), (2, loser fm)]
              ++ semifinal_third t.rounds (maxRound t.rounds)).length
            (maxRound t.rounds) = [] := by
          rw [fallback_third, if_neg (by omega)]
        have hdet : determine_tournament_winners t
            = [(1, fm.winner.getD []), (2, loser fm), (3, loser sm)] := by
          rw [hD, hfb, hsemi3, List.append_nil]
          rfl
        have hsmnd : (sm.team1 ++ sm.team2).Nodup := hinner sm hsmm
        have hLside : loser sm = sm.team1 ∨ loser sm = sm.team2 := by
          rw [loser]
          by_cases hc : sm.winner = some sm.team1
          · rw [if_pos hc]; exact Or.inr rfl
          · rw [if_neg hc]; exact Or.inl rfl
        have hkey : ∀ (tm : List Nat) (mX : Match), mX ∈ sms → mX.winner = some tm →
            ∀ x, x ∈ loser sm → x ∈ tm → False := by
          intro tm mX hmX hmXw x hxL hxT
          by_cases hesm : mX = sm
          · subst hesm
            rw [loser] at hxL
            by_cases hc : mX.winner = some mX.team1
            · rw [if_pos hc] at hxL
              have htm1 : tm = mX.team1 := by
                rw [hmXw] at hc
                exact Option.some.inj hc
              exact (List.nodup_append.mp (hinner mX hmX)).2.2 (htm1 ▸ hxT) hxL
            · rw [if_neg hc] at hxL
              have htm2 : tm = mX.team2 := by
                rcases hswin mX hmX tm hmXw with h1 | h2
                · exact absurd (by rw [hmXw, h1]) hc
                · exact h2
              exact (List.nodup_append.mp (hinner mX hmX)).2.2 hxL (htm2 ▸ hxT)
          · have hxsm : x ∈ sm.team1 ++ sm.team2 := by
              rcases hLside with h | h
              · exact List.mem_append.mpr (Or.inl (h ▸ hxL))
              · exact List.mem_append.mpr (Or.inr (h ▸ hxL))
            have hxmX : x ∈ mX.team1 ++ mX.team2 := by
              rcases hswin mX hmX tm hmXw with h | h
              · exact List.mem_append.mpr (Or.inl (h ▸ hxT))
              · exact List.mem_append.mpr (Or.inr (h ▸ hxT))
            exact hcross sm hsmm mX hmX (fun he => hesm he.symm) x hxsm hxmX
        have hd1 : ∀ x ∈ loser sm, x ∉ fm.team1 :=
          fun x hx hxt => hkey fm.team1 m1 hm1m hm1w x hx hxt
        have hd2 : ∀ x ∈ loser sm, x ∉ fm.team2 :=
          fun x hx hxt => hkey fm.team2 m2 hm2m hm2w x hx hxt
        have hLnenil : loser sm ≠ [] := by
          rcases hLside with h | h
          · rw [h]; exact (hsnem sm hsmm).1
          · rw [h]; exact (hsnem sm hsmm).2
        have hLnd : (loser sm).Nodup := by
          rcases hLside with h | h
          · rw [h]; exact (List.nodup_append.mp hsmnd).1
          · rw [h]; exact (List.nodup_append.mp hsmnd).2.1
        have hdw : ∀ x ∈ loser sm, x ∉ fm.winner.getD [] := by
          intro x hx
          rcases hol with h | h
          · rw [h.1]; exact hd1 x hx
          · rw [h.1]; exact hd2 x hx
        have hdl2 : ∀ x ∈ loser sm, x ∉ loser fm := by
          intro x hx
          rcases hol with h | h
          · rw [h.2]; exact hd2 x hx
          · rw [h.2]; exact hd1 x hx
        have hLnew : loser sm ≠ fm.winner.getD [] := by
          intro he
          obtain ⟨x, hx⟩ := List.exists_mem_of_ne_nil _ hLnenil
          exact hdw x hx (he ▸ hx)
        have hLnel2 : loser sm ≠ loser fm := by
          intro he
          obtain ⟨x, hx⟩ := List.exists_mem_of_ne_nil _ hLnenil
          exact hdl2 x hx (he ▸ hx)
        refine ⟨Or.inr (by rw [hdet]; rfl), ?_, ?_, by rw [hdet]; simp⟩
        · rw [hdet]
          show List.Pairwise (· ≠ ·) [fm.winner.getD [], loser fm, loser sm]
          refine List.Pairwise.cons ?_ (List.Pairwise.cons ?_ (List.pairwise_singleton _ _))
          · intro b hb
            rcases List.mem_cons.mp hb with rfl | hb2
            · exact hwl2ne
            · have hbL : b = loser sm := by simpa using hb2
              subst hbL
              exact fun he => hLnew he.symm
          · intro b hb
            have hbL : b = loser sm := by simpa using hb
            subst hbL
            exact fun he => hLnel2 he.symm
        · rw [tournament_rewards_fst, hdet]
          show (fm.winner.getD [] ++ (loser fm ++ (loser sm ++ []))).Nodup
          rw [List.append_nil, List.nodup_append, List.nodup_append]
          refine ⟨hwnd, ⟨hl2nd, hLnd, fun a ha haL => hdl2 a haL ha⟩, ?_⟩
          intro a haw hal
          rcases List.mem_append.mp hal with h | h
          · exact hdisjwl2 haw h
          · exact hdw a h haw
  · have hmr1' : maxRound t.rounds = 1 := by omega
    have hsemi0 : semifinal_third t.rounds (maxRound t.rounds) = [] := by
      rw [semifinal_third, if_neg (by omega)]
    have hfbform := fallback_third_eq t fms
        ([(1, fm.winner.getD []), (2, loser fm)]
          ++ semifinal_third t.rounds (maxRound t.rounds)).length
        (maxRound t.rounds) (by rw [hsemi0]; simp) hmr1'
    by_cases hfmt : t.format = .f1v1
    · rw [if_pos hfmt] at hfbform
      cases hpf : t.participants.find?
          (fun p => ¬ ((fms.map (fun m => m.team1 ++ m.team2)).flatten).contains p) with
      | none =>
          have hdet : determine_tournament_winners t
              = [(1, fm.winner.getD []), (2, loser fm)] := by
            rw [hD, hfbform, hpf, hsemi0]
            simp
          refine ⟨Or.inl (by rw [hdet]; rfl), ?_, ?_, by rw [hdet]; simp⟩
          · rw [hdet]
            show List.Pairwise (· ≠ ·) [fm.winner.getD [], loser fm]
            refine List.Pairwise.cons ?_ (List.pairwise_singleton _ _)
            intro b hb
            have hbL : b = loser fm := by simpa using hb
            subst hbL
            exact hwl2ne
          · rw [tournament_rewards_fst, hdet]
            show (fm.winner.getD [] ++ (loser fm ++ [])).Nodup
            rw [List.append_nil, List.nodup_append]
            exact ⟨hwnd, hl2nd, hdisjwl2⟩
      | some p =>
          have hdet : determine_tournament_winners t
              = [(1, fm.winner.getD []), (2, loser fm), (3, [p])] := by
            rw [hD, hfbform, hpf, hsemi0]
            rfl
          have hp : p ∉ (fms.map (fun m => m.team1 ++ m.team2)).flatten := by
            have hps := List.find?_some hpf
            simpa using hps
          have hfmmem : fm ∈ fms := List.mem_of_find?_eq_some hfm
          have hmemfl : ∀ x, x ∈ fm.team1 ++ fm.team2 →
              x ∈ (fms.map (fun m => m.team1 ++ m.team2)).flatten := by
            intro x hx
            exact List.mem_flatten.mpr ⟨fm.team1 ++ fm.team2,
              List.mem_map_of_mem _ hfmmem, hx⟩
          have hdw : ∀ x ∈ ([p] : List Nat), x ∉ fm.winner.getD [] := by
            intro x hx hxw
            have hxp : x = p := by simpa using hx
            subst hxp
            apply hp
            apply hmemfl
            rcases hol with h | h
            · exact List.mem_append.mpr (Or.inl (h.1 ▸ hxw))
            · exact List.mem_append.mpr (Or.inr (h.1 ▸ hxw))
          have hdl2 : ∀ x ∈ ([p] : List Nat), x ∉ loser fm := by
            intro x hx hxw
            have hxp : x = p := by simpa using hx
            subst hxp
            apply hp
            apply hmemfl
            rcases hol with h | h
            · exact List.mem_append.mpr (Or.inr (h.2 ▸ hxw))
            · exact List.mem_append.mpr (Or.inl (h.2 ▸ hxw))
          have hLnew : ([p] : List Nat) ≠ fm.winner.getD [] := by
            intro he
            exact hdw p (by simp) (he ▸ (by simp : p ∈ ([p] : List Nat)))
          have hLnel2 : ([p] : List Nat) ≠ loser fm := by
            intro he
            exact hdl2 p (by simp) (he ▸ (by simp : p ∈ ([p] : List Nat)))
          refine ⟨Or.inr (by rw [hdet]; rfl), ?_, ?_, by rw [hdet]; simp⟩
          · rw [hdet]
            show List.Pairwise (· ≠ ·) [fm.winner.getD [], loser fm, [p]]
            refine List.Pairwise.cons ?_
              (List.Pairwise.cons ?_ (List.pairwise_singleton _ _))
            · intro b hb
              rcases List.mem_cons.mp hb with rfl | hb2
              · exact hwl2ne
              · have hbL : b = [p] := by simpa using hb2
                subst hbL
                exact fun he => hLnew he.symm
            · intro b hb
              have hbL : b = [p] := by simpa using hb
              subst hbL
              exact fun he => hLnel2 he.symm
          · rw [tournament_rewards_fst, hdet]
            show (fm.winner.getD [] ++ (loser fm ++ ([p] ++ []))).Nodup
            rw [List.append_nil, List.nodup_append, List.nodup_append]
            refine ⟨hwnd, ⟨hl2nd, List.nodup_singleton _,
              fun a ha haL => hdl2 a haL ha⟩, ?_⟩
            intro a haw hal
            rcases List.mem_append.mp hal with h | h
            · exact hdisjwl2 haw h
            · exact hdw a h haw
    · rw [if_neg hfmt] at hfbform
      have hdet : determine_tournament_winners t
          = [(1, fm.winner.getD []), (2, loser fm)] := by
        rw [hD, hfbform, hsemi0]
        simp
      refine ⟨Or.inl (by rw [hdet]; rfl), ?_, ?_, by rw [hdet]; simp⟩
      · rw [hdet]
        show List.Pairwise (· ≠ ·) [fm.winner.getD [], loser fm]
        refine List.Pairwise.cons ?_ (List.pairwise_singleton _ _)
        intro b hb
        have hbL : b = loser fm := by simpa using hb
        subst hbL
        exact hwl2ne
      · rw [tournament_rewards_fst, hdet]
        show (fm.winner.getD [] ++ (loser fm ++ [])).Nodup
        rw [List.append_nil, List.nodup_append]
        exact ⟨hwnd, hl2nd, hdisjwl2⟩

/-- C10 witness: the theorem applied to the concrete completed four-player
tournament. -/
theorem C10_placement_consistency_witness :
    ((determine_tournament_winners finished4).map Prod.fst = [1, 2]
      ∨ (determine_tournament_winners finished4).map Prod.fst = [1, 2, 3])
    ∧ ((determine_tournament_winners finished4).map Prod.snd).Pairwise (· ≠ ·)
    ∧ ((tournament_rewards finished4).map Prod.fst).Nodup
    ∧ (determine_tournament_winners finished4).length ≤ 3 :=
  C10_placement_consistency finished4
    [{ team1 := [1], team2 := [3], winner := some [1], match_id := 0 }]
    { team1 := [1], team2 := [3], winner := some [1], match_id := 0 }
    (by decide) (by decide) (by decide) (by decide) (by decide) (by decide) (by decide)
    (fun _ => ⟨[{ team1 := [1], team2 := [2], winner := some [1], match_id := 0 },
                { team1 := [3], team2 := [4], winner := some [3], match_id := 1 }],
      by decide, by decide, by decide, by decide,
      ⟨{ team1 := [1], team2 := [2], winner := some [1], match_id := 0 },
        by decide, by decide⟩,
      ⟨{ team1 := [3], team2 := [4], winner := some [3], match_id := 1 },
        by decide, by decide⟩⟩)

end Brawl
